import Mathlib

/-!
Verification of the todo preset service
(`app/domain/todo/preset_service.py` and `app/domain/todo/schema/preset.py`).

The preset schema types are translated directly from
`app/domain/todo/schema/preset.py`; the service functions from
`app/domain/todo/preset_service.py`.  The filesystem and the tag/todo
creation collaborators are external to the component and are modelled
explicitly (a directory snapshot, and an id-generating event log).
-/

namespace PresetSpec

/-- Schema `PresetTag` (name, color, optional description). -/
structure PresetTag where
  name : String
  color : String
  description : Option String
  deriving Repr, DecidableEq

/-- Schema `PresetTagGroup`.  `goal_ratios` is an optional mapping of
ratio-key to fraction; fractions are modelled as rationals. -/
structure PresetTagGroup where
  name : String
  color : String
  description : Option String
  goal_ratios : Option (List (String × Rat))
  is_todo_group : Bool
  deriving Repr, DecidableEq

/-- Schema `PresetTodo`: title, optional description, optional list of tag
names, optional list of children (recursive). -/
inductive PresetTodo : Type where
  | mk : (title : String) → (description : Option String) →
      (tag_names : Option (List String)) →
      (children : Option (List PresetTodo)) → PresetTodo

def PresetTodo.title : PresetTodo → String
  | .mk t _ _ _ => t

def PresetTodo.description : PresetTodo → Option String
  | .mk _ d _ _ => d

def PresetTodo.tag_names : PresetTodo → Option (List String)
  | .mk _ _ n _ => n

def PresetTodo.children : PresetTodo → Option (List PresetTodo)
  | .mk _ _ _ c => c

/-- Schema `Preset`: root structure of a preset document. -/
structure Preset where
  name : String
  description : Option String
  tag_group : PresetTagGroup
  tags : List PresetTag
  todos : List PresetTodo

/-- Schema `PresetInfo`: summary used by the listing. -/
structure PresetInfo where
  name : String
  description : Option String
  tag_count : Nat
  todo_count : Nat
  deriving Repr, DecidableEq

/-- Schema `PresetInitializeResult`. -/
structure PresetInitializeResult where
  preset_name : String
  tag_group_id : String
  tags_created : Nat
  todos_created : Nat
  deriving Repr, DecidableEq

/-- Python truthiness of an `Optional[List[...]]` value (`if xs:`):
`None` and the empty list are falsy, a non-empty list is truthy. -/
def optListTruthy {α : Type} : Option (List α) → Bool
  | none => false
  | some [] => false
  | some (_ :: _) => true

/-- Source function `PresetService._count_todos_recursive`: total number of nodes in the
forest; each node contributes 1, and when its `children` field is truthy
the recursive count of the children is added. -/
def count_todos_recursive : List PresetTodo → Nat
  | [] => 0
  | PresetTodo.mk _ _ _ children :: rest =>
      1 + (match children with
            | some (c :: cs) => count_todos_recursive (c :: cs)
            | _ => 0)
        + count_todos_recursive rest

/-- Spec-side definition for C1: the flat list of every node of the forest,
at every depth (each node followed by its flattened descendants). -/
def allNodes : List PresetTodo → List PresetTodo
  | [] => []
  | PresetTodo.mk t d n children :: rest =>
      PresetTodo.mk t d n children ::
        ((match children with
          | some cs => allNodes cs
          | none => []) ++ allNodes rest)

/-- Spec-side definition for C1: the total number of nodes of a forest,
including every descendant at every depth. -/
def totalNodeCount (todos : List PresetTodo) : Nat :=
  (allNodes todos).length

/-- A parse failure of a preset document: malformed JSON
(`json.JSONDecodeError`) or a schema/validation failure (`ValueError`,
which covers pydantic validation such as a bad color format). -/
inductive ParseErr : Type where
  | jsonDecode (msg : String)
  | validation (msg : String)
  deriving Repr, DecidableEq

/-- Modelled from the spec: the fixed preset directory (`PRESETS_DIR`) as
seen by the service — whether the directory exists, and the `*.json`
documents in it, in glob order.  Each entry is the document's stem (file
name without `.json`) together with the outcome of `_load_preset_file` on
it (the parsed `Preset`, or the parse failure). -/
structure PresetsDir where
  dirExists : Bool
  files : List (String × Except ParseErr Preset)

/-- Modelled from the spec: `Path.exists`/`open` on the path resolved by
`_get_preset_path` — the document named `preset_name`, when the directory
exists and contains it. -/
def PresetsDir.lookup (fs : PresetsDir) (preset_name : String) :
    Option (Except ParseErr Preset) :=
  if fs.dirExists then (fs.files.find? (fun f => f.1 = preset_name)).map (·.2)
  else none

/-- Errors raised by the service: `PresetNotFoundError` (carrying the
requested name), or a propagated parse failure. -/
inductive PresetError : Type where
  | notFound (preset_name : String)
  | malformed (e : ParseErr)
  deriving Repr, DecidableEq

/-- Source method `PresetService.get_preset`: resolve the name to a path; raise
`PresetNotFoundError preset_name` when the path does not exist; otherwise
load and parse the file, propagating parse failures to the caller. -/
def get_preset (fs : PresetsDir) (preset_name : String) :
    Except PresetError Preset :=
  match fs.lookup preset_name with
  | none => .error (.notFound preset_name)
  | some (.error e) => .error (.malformed e)
  | some (.ok preset) => .ok preset

/-- The `PresetInfo` that `list_presets` builds for one successfully
parsed document. -/
def presetInfoOf (preset : Preset) : PresetInfo :=
  { name := preset.name
  , description := preset.description
  , tag_count := preset.tags.length
  , todo_count := count_todos_recursive preset.todos }

/-- Source method `PresetService.list_presets`: returns `[]` when the directory does not
exist; otherwise appends one `PresetInfo` per document, skipping
(`continue`) every document whose load raised a parse failure. -/
def list_presets (fs : PresetsDir) : List PresetInfo :=
  if fs.dirExists then
    fs.files.foldl
      (fun presets f =>
        match f.2 with
        | .ok preset => presets ++ [presetInfoOf preset]
        | .error _ => presets)
      []
  else []

/-- DTO `TagGroupCreate` (from `app/domain/tag/schema/dto.py`), with the
fields `initialize_from_preset` fills in. -/
structure TagGroupCreate where
  name : String
  color : String
  description : Option String
  goal_ratios : Option (List (String × Rat))
  is_todo_group : Bool
  deriving Repr, DecidableEq

/-- DTO `TagCreate`, with the fields `initialize_from_preset` fills in. -/
structure TagCreate where
  name : String
  color : String
  description : Option String
  group_id : Nat
  deriving Repr, DecidableEq

/-- DTO `TodoCreate`, with the fields `_create_todos_recursive` fills in. -/
structure TodoCreate where
  title : String
  description : Option String
  tag_group_id : Nat
  tag_ids : Option (List Nat)
  parent_id : Option Nat
  deriving Repr, DecidableEq

/-- One creation request issued to a collaborator service, together with
the identifier the collaborator returned for the created record. -/
inductive Event : Type where
  | tagGroupCreated (id : Nat) (req : TagGroupCreate)
  | tagCreated (id : Nat) (req : TagCreate)
  | todoCreated (id : Nat) (req : TodoCreate)
  deriving Repr, DecidableEq

/-- Modelled from the spec: the state of the persistence collaborators
(`TagService`/`TodoService`, whose code is outside this component).
Generated identifiers (UUIDs in the source) are modelled as consecutive
naturals drawn from `nextId`; every creation request is appended to
`events` in issue order. -/
structure St where
  nextId : Nat
  events : List Event
  deriving Repr, DecidableEq

/-- Modelled from the spec: `TagService.create_tag_group` — creates a tag
group record and returns its generated identifier. -/
def create_tag_group (req : TagGroupCreate) (st : St) : Nat × St :=
  (st.nextId, ⟨st.nextId + 1, st.events ++ [.tagGroupCreated st.nextId req]⟩)

/-- Modelled from the spec: `TagService.create_tag` — creates a tag record
and returns its generated identifier. -/
def create_tag (req : TagCreate) (st : St) : Nat × St :=
  (st.nextId, ⟨st.nextId + 1, st.events ++ [.tagCreated st.nextId req]⟩)

/-- Modelled from the spec: `TodoService.create_todo` — creates a todo
record and returns its generated identifier. -/
def create_todo (req : TodoCreate) (st : St) : Nat × St :=
  (st.nextId, ⟨st.nextId + 1, st.events ++ [.todoCreated st.nextId req]⟩)

/-- Lookup in a Python `dict[str, UUID]`, modelled as an insertion-ordered
association list whose keys are unique. -/
def dictLookup (m : List (String × Nat)) (k : String) : Option Nat :=
  (m.find? (fun p => p.1 = k)).map (·.2)

/-- Assignment `m[k] = v` on a Python dict: overwrite in place when the key is
present (a Python dict keeps the original insertion position), append at
the end otherwise. -/
def dictInsert (m : List (String × Nat)) (k : String) (v : Nat) :
    List (String × Nat) :=
  if m.any (fun p => p.1 = k) then
    m.map (fun p => if p.1 = k then (k, v) else p)
  else m ++ [(k, v)]

/-- Lines 183–189 of `_create_todos_recursive`: `tag_ids` starts as
`None`; when `preset_todo.tag_names` is truthy it becomes the
comprehension `[tag_name_to_id[name] for name in tag_names if name in
tag_name_to_id]`. -/
def resolveTagIds (tag_name_to_id : List (String × Nat))
    (tag_names : Option (List String)) : Option (List Nat) :=
  if optListTruthy tag_names then
    some ((tag_names.getD []).filterMap (fun name => dictLookup tag_name_to_id name))
  else none

/-- Source method `PresetService._create_todos_recursive`: create the forest's todos
depth-first in document order — for each node, resolve its tag names,
create it under `parent_id`, then recurse into its (truthy) children with
the freshly generated identifier as parent — returning the number of
todos created. -/
def create_todos_recursive :
    List PresetTodo → Nat → List (String × Nat) → Option Nat → St → Nat × St
  | [], _, _, _, st => (0, st)
  | PresetTodo.mk title desc tag_names children :: rest,
      tag_group_id, tag_name_to_id, parent_id, st =>
    let tag_ids := resolveTagIds tag_name_to_id tag_names
    let r := create_todo
      { title := title, description := desc, tag_group_id := tag_group_id
      , tag_ids := tag_ids, parent_id := parent_id } st
    let rc := match children with
      | some (c :: cs) =>
          create_todos_recursive (c :: cs) tag_group_id tag_name_to_id (some r.1) r.2
      | _ => (0, r.2)
    let rr := create_todos_recursive rest tag_group_id tag_name_to_id parent_id rc.2
    (1 + rc.1 + rr.1, rr.2)

/-- Lines 138–146 of `initialize_from_preset`: create one tag record per
preset tag, in list order, scoped to the created group, executing
`tag_name_to_id[preset_tag.name] = tag.id` after each creation; returns
the final mapping. -/
def create_preset_tags :
    List PresetTag → Nat → List (String × Nat) → St → List (String × Nat) × St
  | [], _, tag_name_to_id, st => (tag_name_to_id, st)
  | preset_tag :: rest, group_id, tag_name_to_id, st =>
    let r := create_tag
      { name := preset_tag.name, color := preset_tag.color
      , description := preset_tag.description, group_id := group_id } st
    create_preset_tags rest group_id
      (dictInsert tag_name_to_id preset_tag.name r.1) r.2

/-- The body of `initialize_from_preset` after the preset is loaded
(lines 128–161): create the tag group, the tags, the todo forest, and
assemble the `PresetInitializeResult`. -/
def initialize_core (preset : Preset) (preset_name : String) (st : St) :
    PresetInitializeResult × St :=
  let g := create_tag_group
    { name := preset.tag_group.name, color := preset.tag_group.color
    , description := preset.tag_group.description
    , goal_ratios := preset.tag_group.goal_ratios
    , is_todo_group := preset.tag_group.is_todo_group } st
  let t := create_preset_tags preset.tags g.1 [] g.2
  let d := create_todos_recursive preset.todos g.1 t.1 none t.2
  ({ preset_name := preset_name, tag_group_id := toString g.1
   , tags_created := preset.tags.length, todos_created := d.1 }, d.2)

/-- Source method `PresetService.initialize_from_preset`: load the preset by name
(`get_preset`, whose `PresetNotFoundError` and parse failures propagate,
in which case no creation request is issued and the collaborator state is
unchanged), then materialize it. -/
def initialize_from_preset (fs : PresetsDir) (preset_name : String)
    (st : St) : Except PresetError PresetInitializeResult × St :=
  match get_preset fs preset_name with
  | .error e => (.error e, st)
  | .ok preset =>
    let r := initialize_core preset preset_name st
    (.ok r.1, r.2)

/-! ## Spec-side definitions used to state the claims -/

/-- The creation requests `create_todos_recursive` issues for a forest, as
a pure function of the first fresh identifier `next` (each creation
consumes one identifier). -/
def genTodoEvents :
    List PresetTodo → Nat → List (String × Nat) → Option Nat → Nat → List Event
  | [], _, _, _, _ => []
  | PresetTodo.mk title desc tag_names children :: rest,
      tag_group_id, tag_name_to_id, parent_id, next =>
    let tag_ids := resolveTagIds tag_name_to_id tag_names
    let ev := Event.todoCreated next
      { title := title, description := desc, tag_group_id := tag_group_id
      , tag_ids := tag_ids, parent_id := parent_id }
    let childEvs := match children with
      | some (c :: cs) =>
          genTodoEvents (c :: cs) tag_group_id tag_name_to_id (some next) (next + 1)
      | _ => []
    ev :: (childEvs ++
      genTodoEvents rest tag_group_id tag_name_to_id parent_id
        (next + 1 + childEvs.length))

/-- The creation requests `create_preset_tags` issues, one per preset tag
in list order, with consecutive identifiers starting at `next`. -/
def genTagEvents : List PresetTag → Nat → Nat → List Event
  | [], _, _ => []
  | preset_tag :: rest, group_id, next =>
      Event.tagCreated next
        { name := preset_tag.name, color := preset_tag.color
        , description := preset_tag.description, group_id := group_id } ::
      genTagEvents rest group_id (next + 1)

/-- The name→identifier mapping `create_preset_tags` builds, as a pure
function of the first fresh identifier `next`. -/
def buildTagMap : List PresetTag → List (String × Nat) → Nat → List (String × Nat)
  | [], m, _ => m
  | preset_tag :: rest, m, next =>
      buildTagMap rest (dictInsert m preset_tag.name next) (next + 1)

/-- Identifiers of the tag groups created in an event list, in order. -/
def tagGroupIdsOf (evs : List Event) : List Nat :=
  evs.filterMap (fun e => match e with
    | .tagGroupCreated id _ => some id
    | _ => none)

/-- Identifiers of the tags created in an event list, in order. -/
def tagIdsOf (evs : List Event) : List Nat :=
  evs.filterMap (fun e => match e with
    | .tagCreated id _ => some id
    | _ => none)

/-- Names of the tags created in an event list, in order. -/
def tagNamesOf (evs : List Event) : List String :=
  evs.filterMap (fun e => match e with
    | .tagCreated _ req => some req.name
    | _ => none)

/-- Identifiers of the todos created in an event list, in order. -/
def todoIdsOf (evs : List Event) : List Nat :=
  evs.filterMap (fun e => match e with
    | .todoCreated id _ => some id
    | _ => none)

/-- Titles of the todos created in an event list, in order. -/
def todoTitlesOf (evs : List Event) : List String :=
  evs.filterMap (fun e => match e with
    | .todoCreated _ req => some req.title
    | _ => none)

/-- Spec-side for C5: the document-order, parent-first (preorder) title
sequence of a forest. -/
def preorderTitles : List PresetTodo → List String
  | [] => []
  | PresetTodo.mk t _ _ children :: rest =>
      t :: ((match children with
             | some cs => preorderTitles cs
             | none => []) ++ preorderTitles rest)

/-- Spec-side for C5: every todo creation request in the event list has a
parent reference that is `none`, or an identifier in `avail`, or the
identifier of a todo created strictly earlier in the list — never a
forward or dangling reference. -/
def noForwardRef : List Event → List Nat → Prop
  | [], _ => True
  | .todoCreated id req :: rest, avail =>
      (req.parent_id = none ∨ ∃ p, req.parent_id = some p ∧ p ∈ avail) ∧
        noForwardRef rest (avail ++ [id])
  | _ :: rest, avail => noForwardRef rest avail

/-- Spec-side for C7: index of the last tag in the list bearing the given
name, if any. -/
def lastIdxWithName (name : String) : List PresetTag → Option Nat
  | [] => none
  | t :: ts =>
      match lastIdxWithName name ts with
      | some i => some (i + 1)
      | none => if t.name = name then some 0 else none

/-- Spec-side for C8: resolve tag names left to right, keeping the mapped
identifier of every name present in the mapping and silently omitting
every absent name. -/
def specResolve (m : List (String × Nat)) : List String → List Nat
  | [] => []
  | name :: rest =>
      match dictLookup m name with
      | some i => i :: specResolve m rest
      | none => specResolve m rest

/-- The example forest from the spec and the unit test: one root with two
children, one of which has one child, plus one standalone root. -/
def exampleForest : List PresetTodo :=
  [ PresetTodo.mk "Parent 1" none none (some
      [ PresetTodo.mk "Child 1.1" none none none
      , PresetTodo.mk "Child 1.2" none none (some
          [ PresetTodo.mk "Grandchild 1.2.1" none none none ])
      ])
  , PresetTodo.mk "Parent 2" none none none ]

/-! ## Lemmas -/

theorem count_eq_allNodes_length : ∀ todos : List PresetTodo,
    count_todos_recursive todos = (allNodes todos).length
  | [] => by simp [count_todos_recursive, allNodes]
  | PresetTodo.mk t d n children :: rest => by
      have h2 := count_eq_allNodes_length rest
      match children with
      | none => simp [count_todos_recursive, allNodes, h2]; omega
      | some [] => simp [count_todos_recursive, allNodes, h2]; omega
      | some (c :: cs) =>
          have h1 := count_eq_allNodes_length (c :: cs)
          simp [count_todos_recursive, allNodes, h1, h2]; omega

theorem dictLookup_nil (k : String) : dictLookup [] k = none := by
  simp [dictLookup]

theorem dictLookup_cons (p : String × Nat) (m : List (String × Nat))
    (k : String) :
    dictLookup (p :: m) k = if p.1 = k then some p.2 else dictLookup m k := by
  by_cases hp : p.1 = k
  · simp [dictLookup, List.find?_cons_of_pos, hp]
  · simp [dictLookup, List.find?_cons_of_neg, hp]

theorem dictLookup_map_replace (k k' : String) (v : Nat)
    (hne : k ≠ k') : ∀ m : List (String × Nat),
    dictLookup (m.map (fun p => if p.1 = k then (k, v) else p)) k' =
      dictLookup m k'
  | [] => by simp [dictLookup]
  | p :: rest => by
      have ih := dictLookup_map_replace k k' v hne rest
      by_cases hp : p.1 = k
      · simp [dictLookup_cons, hp, hne, ih]
      · simp [dictLookup_cons, hp, ih]

theorem dictLookup_map_replace_hit (k : String) (v : Nat) :
    ∀ m : List (String × Nat), (∃ p ∈ m, p.1 = k) →
    dictLookup (m.map (fun p => if p.1 = k then (k, v) else p)) k = some v
  | [], h => by simp at h
  | p :: rest, h => by
      by_cases hp : p.1 = k
      · simp [dictLookup_cons, hp]
      · have hrest : ∃ q ∈ rest, q.1 = k := by
          rcases h with ⟨q, hq, hqk⟩
          rcases List.mem_cons.1 hq with rfl | hq'
          · exact absurd hqk hp
          · exact ⟨q, hq', hqk⟩
        have ih := dictLookup_map_replace_hit k v rest hrest
        simp [dictLookup_cons, hp, ih]

theorem dictLookup_append_fresh (k k' : String) (v : Nat) :
    ∀ m : List (String × Nat), (∀ p ∈ m, p.1 ≠ k) →
    dictLookup (m ++ [(k, v)]) k' =
      if k = k' then some v else dictLookup m k'
  | [], _ => by
      by_cases hk : k = k' <;> simp [dictLookup_nil, dictLookup_cons, hk]
  | p :: rest, h => by
      have hp : p.1 ≠ k := h p (List.mem_cons_self p rest)
      have ih := dictLookup_append_fresh k k' v rest
        (fun q hq => h q (List.mem_cons_of_mem p hq))
      by_cases hp' : p.1 = k'
      · have hkk : k ≠ k' := fun he => hp (by rw [he, hp'])
        simp [dictLookup_cons, hp', hkk]
      · simp [dictLookup_cons, hp', ih]

/-- Lookup after a Python-dict insertion: the inserted key maps to the new
value, every other key is unaffected. -/
theorem dictLookup_insert (m : List (String × Nat)) (k k' : String) (v : Nat) :
    dictLookup (dictInsert m k v) k' =
      if k = k' then some v else dictLookup m k' := by
  unfold dictInsert
  by_cases hany : m.any (fun p => p.1 = k) = true
  · rw [if_pos hany]
    have hex : ∃ p ∈ m, p.1 = k := by
      rw [List.any_eq_true] at hany
      obtain ⟨p, hp, hpk⟩ := hany
      exact ⟨p, hp, by simpa using hpk⟩
    by_cases hk : k = k'
    · subst hk
      rw [if_pos rfl]
      exact dictLookup_map_replace_hit k v m hex
    · rw [if_neg hk]
      exact dictLookup_map_replace k k' v hk m
  · rw [if_neg hany]
    have hfr : ∀ p ∈ m, p.1 ≠ k := by
      intro p hp hpk
      exact hany (List.any_eq_true.2 ⟨p, hp, by simpa using hpk⟩)
    exact dictLookup_append_fresh k k' v m hfr

theorem buildTagMap_lookup : ∀ (tags : List PresetTag)
    (m : List (String × Nat)) (next : Nat) (name : String),
    dictLookup (buildTagMap tags m next) name =
      match lastIdxWithName name tags with
      | some i => some (next + i)
      | none => dictLookup m name
  | [], m, next, name => by simp [buildTagMap, lastIdxWithName]
  | t :: rest, m, next, name => by
      have ih := buildTagMap_lookup rest (dictInsert m t.name next)
        (next + 1) name
      rw [buildTagMap, ih]
      cases hrest : lastIdxWithName name rest with
      | some i =>
          simp [lastIdxWithName, hrest]
          omega
      | none =>
          rw [dictLookup_insert]
          by_cases ht : t.name = name
          · simp [lastIdxWithName, hrest, ht]
          · simp [lastIdxWithName, hrest, ht]

theorem create_preset_tags_eq : ∀ (tags : List PresetTag) (gid : Nat)
    (m : List (String × Nat)) (st : St),
    create_preset_tags tags gid m st =
      (buildTagMap tags m st.nextId,
       ⟨st.nextId + tags.length, st.events ++ genTagEvents tags gid st.nextId⟩)
  | [], gid, m, st => by simp [create_preset_tags, buildTagMap, genTagEvents]
  | t :: rest, gid, m, st => by
      have ih := create_preset_tags_eq rest gid (dictInsert m t.name st.nextId)
        ⟨st.nextId + 1, st.events ++
          [Event.tagCreated st.nextId
            { name := t.name, color := t.color
            , description := t.description, group_id := gid }]⟩
      simp only [create_preset_tags, create_tag] at ih ⊢
      rw [ih]
      simp [buildTagMap, genTagEvents, List.append_assoc]
      omega

theorem tagNamesOf_genTagEvents : ∀ (tags : List PresetTag) (gid next : Nat),
    tagNamesOf (genTagEvents tags gid next) = tags.map (fun t => t.name)
  | [], _, _ => rfl
  | t :: rest, gid, next => by
      have ih := tagNamesOf_genTagEvents rest gid (next + 1)
      simp [genTagEvents, tagNamesOf, List.filterMap_cons] at ih ⊢
      exact ih

theorem tagIdsOf_genTagEvents : ∀ (tags : List PresetTag) (gid next : Nat),
    tagIdsOf (genTagEvents tags gid next) = List.range' next tags.length
  | [], _, _ => rfl
  | t :: rest, gid, next => by
      have ih := tagIdsOf_genTagEvents rest gid (next + 1)
      simp [genTagEvents, tagIdsOf, List.filterMap_cons, List.range'] at ih ⊢
      exact ih

theorem todoIdsOf_genTagEvents : ∀ (tags : List PresetTag) (gid next : Nat),
    todoIdsOf (genTagEvents tags gid next) = []
  | [], _, _ => rfl
  | t :: rest, gid, next => by
      have ih := todoIdsOf_genTagEvents rest gid (next + 1)
      simp [genTagEvents, todoIdsOf, List.filterMap_cons] at ih ⊢
      exact ih

theorem tagGroupIdsOf_genTagEvents : ∀ (tags : List PresetTag) (gid next : Nat),
    tagGroupIdsOf (genTagEvents tags gid next) = []
  | [], _, _ => rfl
  | t :: rest, gid, next => by
      have ih := tagGroupIdsOf_genTagEvents rest gid (next + 1)
      simp [genTagEvents, tagGroupIdsOf, List.filterMap_cons] at ih ⊢
      exact ih

theorem todoTitlesOf_genTagEvents : ∀ (tags : List PresetTag) (gid next : Nat),
    todoTitlesOf (genTagEvents tags gid next) = []
  | [], _, _ => rfl
  | t :: rest, gid, next => by
      have ih := todoTitlesOf_genTagEvents rest gid (next + 1)
      simp [genTagEvents, todoTitlesOf, List.filterMap_cons] at ih ⊢
      exact ih

theorem genTodoEvents_length : ∀ (todos : List PresetTodo) (gid : Nat)
    (m : List (String × Nat)) (pid : Option Nat) (next : Nat),
    (genTodoEvents todos gid m pid next).length = count_todos_recursive todos
  | [], _, _, _, _ => by simp [genTodoEvents, count_todos_recursive]
  | PresetTodo.mk title desc tag_names children :: rest, gid, m, pid, next => by
      have ih2 := fun n => genTodoEvents_length rest gid m pid n
      match children with
      | none =>
          simp [genTodoEvents, count_todos_recursive, ih2]
          omega
      | some [] =>
          simp [genTodoEvents, count_todos_recursive, ih2]
          omega
      | some (c :: cs) =>
          have ih1 := genTodoEvents_length (c :: cs) gid m (some next) (next + 1)
          simp [genTodoEvents, count_todos_recursive, ih1, ih2]
          omega

theorem todoIdsOf_append (xs ys : List Event) :
    todoIdsOf (xs ++ ys) = todoIdsOf xs ++ todoIdsOf ys := by
  simp [todoIdsOf, List.filterMap_append]

theorem todoIdsOf_cons_todo (id : Nat) (req : TodoCreate) (l : List Event) :
    todoIdsOf (Event.todoCreated id req :: l) = id :: todoIdsOf l := by
  simp [todoIdsOf, List.filterMap_cons]

theorem todoTitlesOf_cons_todo (id : Nat) (req : TodoCreate) (l : List Event) :
    todoTitlesOf (Event.todoCreated id req :: l) =
      req.title :: todoTitlesOf l := by
  simp [todoTitlesOf, List.filterMap_cons]

theorem tagIdsOf_cons_todo (id : Nat) (req : TodoCreate) (l : List Event) :
    tagIdsOf (Event.todoCreated id req :: l) = tagIdsOf l := by
  simp [tagIdsOf, List.filterMap_cons]

theorem tagIdsOf_append (xs ys : List Event) :
    tagIdsOf (xs ++ ys) = tagIdsOf xs ++ tagIdsOf ys := by
  simp [tagIdsOf, List.filterMap_append]

theorem tagGroupIdsOf_cons_todo (id : Nat) (req : TodoCreate) (l : List Event) :
    tagGroupIdsOf (Event.todoCreated id req :: l) = tagGroupIdsOf l := by
  simp [tagGroupIdsOf, List.filterMap_cons]

theorem tagGroupIdsOf_cons_tagGroup (id : Nat) (req : TagGroupCreate)
    (l : List Event) :
    tagGroupIdsOf (Event.tagGroupCreated id req :: l) =
      id :: tagGroupIdsOf l := by
  simp [tagGroupIdsOf, List.filterMap_cons]

theorem tagGroupIdsOf_append (xs ys : List Event) :
    tagGroupIdsOf (xs ++ ys) = tagGroupIdsOf xs ++ tagGroupIdsOf ys := by
  simp [tagGroupIdsOf, List.filterMap_append]

theorem noForwardRef_append : ∀ (xs ys : List Event) (avail : List Nat),
    noForwardRef xs avail → noForwardRef ys (avail ++ todoIdsOf xs) →
    noForwardRef (xs ++ ys) avail
  | [], ys, avail, _, hys => by simpa [todoIdsOf] using hys
  | Event.todoCreated id req :: rest, ys, avail, hxs, hys => by
      obtain ⟨hok, hrest⟩ := hxs
      refine ⟨hok, ?_⟩
      apply noForwardRef_append rest ys (avail ++ [id]) hrest
      have heq : avail ++ [id] ++ todoIdsOf rest =
          avail ++ todoIdsOf (Event.todoCreated id req :: rest) := by
        simp [todoIdsOf, List.filterMap_cons, List.append_assoc]
      rw [heq]
      exact hys
  | Event.tagGroupCreated id req :: rest, ys, avail, hxs, hys => by
      apply noForwardRef_append rest ys avail hxs
      simpa [todoIdsOf, List.filterMap_cons] using hys
  | Event.tagCreated id req :: rest, ys, avail, hxs, hys => by
      apply noForwardRef_append rest ys avail hxs
      simpa [todoIdsOf, List.filterMap_cons] using hys

theorem genTagEvents_noForwardRef : ∀ (tags : List PresetTag)
    (gid next : Nat) (avail : List Nat),
    noForwardRef (genTagEvents tags gid next) avail
  | [], _, _, _ => trivial
  | _ :: rest, gid, next, avail =>
      genTagEvents_noForwardRef rest gid (next + 1) avail

theorem genTodoEvents_noForwardRef : ∀ (todos : List PresetTodo) (gid : Nat)
    (m : List (String × Nat)) (pid : Option Nat) (next : Nat)
    (avail : List Nat),
    (pid = none ∨ ∃ p, pid = some p ∧ p ∈ avail) →
    noForwardRef (genTodoEvents todos gid m pid next) avail
  | [], _, _, _, _, _, _ => by simp [genTodoEvents, noForwardRef]
  | PresetTodo.mk title desc tag_names children :: rest,
      gid, m, pid, next, avail, hpid => by
      have hpid' : ∀ extra : List Nat,
          pid = none ∨ ∃ p, pid = some p ∧ p ∈ (avail ++ [next]) ++ extra := by
        intro extra
        rcases hpid with h | ⟨p, hp, hmem⟩
        · exact Or.inl h
        · exact Or.inr ⟨p, hp, List.mem_append_left _ (List.mem_append_left _ hmem)⟩
      match children with
      | none =>
          simp only [genTodoEvents, List.nil_append, List.length_nil,
            Nat.add_zero]
          refine ⟨hpid, ?_⟩
          exact genTodoEvents_noForwardRef rest gid m pid (next + 1)
            (avail ++ [next]) (by simpa using hpid' [])
      | some [] =>
          simp only [genTodoEvents, List.nil_append, List.length_nil,
            Nat.add_zero]
          refine ⟨hpid, ?_⟩
          exact genTodoEvents_noForwardRef rest gid m pid (next + 1)
            (avail ++ [next]) (by simpa using hpid' [])
      | some (c :: cs) =>
          simp only [genTodoEvents]
          refine ⟨hpid, ?_⟩
          apply noForwardRef_append
          · exact genTodoEvents_noForwardRef (c :: cs) gid m (some next)
              (next + 1) (avail ++ [next])
              (Or.inr ⟨next, rfl,
                List.mem_append_right _ (List.mem_singleton.2 rfl)⟩)
          · exact genTodoEvents_noForwardRef rest gid m pid _
              ((avail ++ [next]) ++
                todoIdsOf (genTodoEvents (c :: cs) gid m (some next) (next + 1)))
              (hpid' _)

theorem todoTitlesOf_append (xs ys : List Event) :
    todoTitlesOf (xs ++ ys) = todoTitlesOf xs ++ todoTitlesOf ys := by
  simp [todoTitlesOf, List.filterMap_append]

theorem todoTitlesOf_genTodoEvents : ∀ (todos : List PresetTodo) (gid : Nat)
    (m : List (String × Nat)) (pid : Option Nat) (next : Nat),
    todoTitlesOf (genTodoEvents todos gid m pid next) = preorderTitles todos
  | [], _, _, _, _ => by simp [genTodoEvents, todoTitlesOf, preorderTitles]
  | PresetTodo.mk title desc tag_names children :: rest, gid, m, pid, next => by
      have ih2 := fun n => todoTitlesOf_genTodoEvents rest gid m pid n
      match children with
      | none =>
          simp [genTodoEvents, preorderTitles, todoTitlesOf_cons_todo,
            todoTitlesOf_append, ih2]
      | some [] =>
          simp [genTodoEvents, preorderTitles, todoTitlesOf_cons_todo,
            todoTitlesOf_append, ih2]
      | some (c :: cs) =>
          have ih1 := todoTitlesOf_genTodoEvents (c :: cs) gid m (some next)
            (next + 1)
          simp [genTodoEvents, preorderTitles, todoTitlesOf_cons_todo,
            todoTitlesOf_append, ih1, ih2]

theorem tagGroupIdsOf_genTodoEvents : ∀ (todos : List PresetTodo) (gid : Nat)
    (m : List (String × Nat)) (pid : Option Nat) (next : Nat),
    tagGroupIdsOf (genTodoEvents todos gid m pid next) = []
  | [], _, _, _, _ => by simp [genTodoEvents, tagGroupIdsOf]
  | PresetTodo.mk title desc tag_names children :: rest, gid, m, pid, next => by
      have ih2 := fun n => tagGroupIdsOf_genTodoEvents rest gid m pid n
      match children with
      | none =>
          simp [genTodoEvents, tagGroupIdsOf_cons_todo, tagGroupIdsOf_append,
            ih2]
      | some [] =>
          simp [genTodoEvents, tagGroupIdsOf_cons_todo, tagGroupIdsOf_append,
            ih2]
      | some (c :: cs) =>
          have ih1 := tagGroupIdsOf_genTodoEvents (c :: cs) gid m (some next)
            (next + 1)
          simp [genTodoEvents, tagGroupIdsOf_cons_todo, tagGroupIdsOf_append,
            ih1, ih2]

theorem tagIdsOf_genTodoEvents : ∀ (todos : List PresetTodo) (gid : Nat)
    (m : List (String × Nat)) (pid : Option Nat) (next : Nat),
    tagIdsOf (genTodoEvents todos gid m pid next) = []
  | [], _, _, _, _ => by simp [genTodoEvents, tagIdsOf]
  | PresetTodo.mk title desc tag_names children :: rest, gid, m, pid, next => by
      have ih2 := fun n => tagIdsOf_genTodoEvents rest gid m pid n
      match children with
      | none =>
          simp [genTodoEvents, tagIdsOf_cons_todo, tagIdsOf_append, ih2]
      | some [] =>
          simp [genTodoEvents, tagIdsOf_cons_todo, tagIdsOf_append, ih2]
      | some (c :: cs) =>
          have ih1 := tagIdsOf_genTodoEvents (c :: cs) gid m (some next)
            (next + 1)
          simp [genTodoEvents, tagIdsOf_cons_todo, tagIdsOf_append, ih1, ih2]

theorem todoIdsOf_genTodoEvents_length : ∀ (todos : List PresetTodo) (gid : Nat)
    (m : List (String × Nat)) (pid : Option Nat) (next : Nat),
    (todoIdsOf (genTodoEvents todos gid m pid next)).length =
      (genTodoEvents todos gid m pid next).length
  | [], _, _, _, _ => by simp [genTodoEvents, todoIdsOf]
  | PresetTodo.mk title desc tag_names children :: rest, gid, m, pid, next => by
      have ih2 := fun n => todoIdsOf_genTodoEvents_length rest gid m pid n
      match children with
      | none =>
          simp [genTodoEvents, todoIdsOf_cons_todo, todoIdsOf_append, ih2]
      | some [] =>
          simp [genTodoEvents, todoIdsOf_cons_todo, todoIdsOf_append, ih2]
      | some (c :: cs) =>
          have ih1 := todoIdsOf_genTodoEvents_length (c :: cs) gid m (some next)
            (next + 1)
          simp [genTodoEvents, todoIdsOf_cons_todo, todoIdsOf_append,
            List.length_append, ih1, ih2]

theorem tagIdsOf_cons_tagGroup (id : Nat) (req : TagGroupCreate)
    (l : List Event) :
    tagIdsOf (Event.tagGroupCreated id req :: l) = tagIdsOf l := by
  simp [tagIdsOf, List.filterMap_cons]

theorem todoIdsOf_cons_tagGroup (id : Nat) (req : TagGroupCreate)
    (l : List Event) :
    todoIdsOf (Event.tagGroupCreated id req :: l) = todoIdsOf l := by
  simp [todoIdsOf, List.filterMap_cons]

theorem todoTitlesOf_cons_tagGroup (id : Nat) (req : TagGroupCreate)
    (l : List Event) :
    todoTitlesOf (Event.tagGroupCreated id req :: l) = todoTitlesOf l := by
  simp [todoTitlesOf, List.filterMap_cons]

theorem create_todos_recursive_eq : ∀ (todos : List PresetTodo) (gid : Nat)
    (m : List (String × Nat)) (pid : Option Nat) (st : St),
    create_todos_recursive todos gid m pid st =
      ((genTodoEvents todos gid m pid st.nextId).length,
       ⟨st.nextId + (genTodoEvents todos gid m pid st.nextId).length,
        st.events ++ genTodoEvents todos gid m pid st.nextId⟩)
  | [], gid, m, pid, st => by simp [create_todos_recursive, genTodoEvents]
  | PresetTodo.mk title desc tag_names children :: rest, gid, m, pid, st => by
      have ih2 := fun st' => create_todos_recursive_eq rest gid m pid st'
      match children with
      | none =>
          simp [create_todos_recursive, create_todo, genTodoEvents, ih2,
            List.append_assoc]
          omega
      | some [] =>
          simp [create_todos_recursive, create_todo, genTodoEvents, ih2,
            List.append_assoc]
          omega
      | some (c :: cs) =>
          have ih1 := create_todos_recursive_eq (c :: cs) gid m (some st.nextId)
            ⟨st.nextId + 1, st.events ++
              [Event.todoCreated st.nextId
                { title := title, description := desc, tag_group_id := gid
                , tag_ids := resolveTagIds m tag_names, parent_id := pid }]⟩
          simp [create_todos_recursive, create_todo, genTodoEvents, ih1, ih2,
            List.append_assoc]
          omega

/-- Full characterization of `initialize_core`: the result record, and the
events appended to the collaborator state. -/
theorem initialize_core_eq (preset : Preset) (preset_name : String) (st : St) :
    initialize_core preset preset_name st =
      ({ preset_name := preset_name, tag_group_id := toString st.nextId
       , tags_created := preset.tags.length
       , todos_created := count_todos_recursive preset.todos },
       ⟨st.nextId + 1 + preset.tags.length + count_todos_recursive preset.todos,
        st.events ++
          (Event.tagGroupCreated st.nextId
            { name := preset.tag_group.name, color := preset.tag_group.color
            , description := preset.tag_group.description
            , goal_ratios := preset.tag_group.goal_ratios
            , is_todo_group := preset.tag_group.is_todo_group } ::
           (genTagEvents preset.tags st.nextId (st.nextId + 1) ++
            genTodoEvents preset.todos st.nextId
              (buildTagMap preset.tags [] (st.nextId + 1)) none
              (st.nextId + 1 + preset.tags.length)))⟩) := by
  simp [initialize_core, create_tag_group, create_preset_tags_eq,
    create_todos_recursive_eq, genTodoEvents_length, List.append_assoc]

/-- The events one call of `initialize_core` appends to the state. -/
theorem initialize_core_new_events (preset : Preset) (preset_name : String)
    (st : St) :
    (initialize_core preset preset_name st).2.events.drop st.events.length =
      Event.tagGroupCreated st.nextId
        { name := preset.tag_group.name, color := preset.tag_group.color
        , description := preset.tag_group.description
        , goal_ratios := preset.tag_group.goal_ratios
        , is_todo_group := preset.tag_group.is_todo_group } ::
      (genTagEvents preset.tags st.nextId (st.nextId + 1) ++
       genTodoEvents preset.todos st.nextId
         (buildTagMap preset.tags [] (st.nextId + 1)) none
         (st.nextId + 1 + preset.tags.length)) := by
  rw [initialize_core_eq]
  simp [List.drop_left]

theorem foldl_presets_eq_filterMap :
    ∀ (files : List (String × Except ParseErr Preset)) (acc : List PresetInfo),
    files.foldl
      (fun presets f =>
        match f.2 with
        | .ok preset => presets ++ [presetInfoOf preset]
        | .error _ => presets) acc =
      acc ++ files.filterMap (fun f =>
        match f.2 with
        | .ok preset => some (presetInfoOf preset)
        | .error _ => none)
  | [], acc => by simp
  | f :: rest, acc => by
      match hf : f.2 with
      | .ok preset =>
          have ih := foldl_presets_eq_filterMap rest (acc ++ [presetInfoOf preset])
          simp [List.foldl_cons, List.filterMap_cons, hf, ih, List.append_assoc]
      | .error e =>
          have ih := foldl_presets_eq_filterMap rest acc
          simp [List.foldl_cons, List.filterMap_cons, hf, ih]

/-- The first event a one-node call of `create_todos_recursive` appends:
the node's creation request, with the resolved `tag_ids` and the given
parent. -/
theorem create_todos_single_head (title : String) (desc : Option String)
    (tag_names : Option (List String)) (children : Option (List PresetTodo))
    (gid : Nat) (m : List (String × Nat)) (pid : Option Nat) (st : St) :
    ((create_todos_recursive [PresetTodo.mk title desc tag_names children]
        gid m pid st).2.events.drop st.events.length).head? =
      some (Event.todoCreated st.nextId
        { title := title, description := desc, tag_group_id := gid
        , tag_ids := resolveTagIds m tag_names, parent_id := pid }) := by
  rw [create_todos_recursive_eq]
  match children with
  | none => simp [List.drop_left, genTodoEvents]
  | some [] => simp [List.drop_left, genTodoEvents]
  | some (c :: cs) => simp [List.drop_left, genTodoEvents]

theorem specResolve_eq_filterMap (m : List (String × Nat)) :
    ∀ names : List String,
    specResolve m names = names.filterMap (fun name => dictLookup m name)
  | [] => by simp [specResolve]
  | name :: rest => by
      have ih := specResolve_eq_filterMap m rest
      cases h : dictLookup m name <;>
        simp [specResolve, List.filterMap_cons, h, ih]

theorem resolveTagIds_eq_specResolve (m : List (String × Nat))
    (names : List String) (h : names ≠ []) :
    resolveTagIds m (some names) = some (specResolve m names) := by
  match names, h with
  | n :: rest, _ =>
      simp [resolveTagIds, optListTruthy, specResolve_eq_filterMap]

/-- A concrete preset document used by the witnesses, following the
scenario of the spec (the `study` preset). -/
def studyPreset : Preset :=
  { name := "study", description := none
  , tag_group := { name := "Study", color := "#FF0000", description := none
                 , goal_ratios := none, is_todo_group := true }
  , tags := [{ name := "Math", color := "#00FF00", description := none }]
  , todos := [ PresetTodo.mk "Read" none (some ["Math"]) (some
      [PresetTodo.mk "Chapter 1" none none none]) ] }

/-- A preset document whose internal `name` field (`daily`) differs from
the file name it is stored under. -/
def renamedPreset : Preset :=
  { studyPreset with name := "daily" }

/-! ## Claims -/

/-- C1: `_count_todos_recursive` returns the total number of nodes of the
forest, including every descendant at every depth; on the example forest
of one root with two children, one of which has one child, plus one
standalone root, it returns 5. -/
theorem claim_C1_count_todos :
    (∀ todos : List PresetTodo,
      count_todos_recursive todos = totalNodeCount todos) ∧
    count_todos_recursive exampleForest = 5 := by
  constructor
  · intro todos
    rw [count_eq_allNodes_length]
    rfl
  · simp [count_todos_recursive, exampleForest]

/-- C2: when the resolved path does not exist, `get_preset` raises
`PresetNotFoundError` carrying exactly the requested name, and
`initialize_from_preset` propagates that same error without issuing any
creation request (the collaborator state is unchanged); when the path
exists, `get_preset` returns the parsed `Preset`, and a parse failure
propagates to the caller. -/
theorem claim_C2_get_preset (fs : PresetsDir) (preset_name : String)
    (st : St) :
    (fs.lookup preset_name = none →
      get_preset fs preset_name = .error (.notFound preset_name) ∧
      initialize_from_preset fs preset_name st =
        (.error (.notFound preset_name), st)) ∧
    (∀ preset, fs.lookup preset_name = some (.ok preset) →
      get_preset fs preset_name = .ok preset) ∧
    (∀ e, fs.lookup preset_name = some (.error e) →
      get_preset fs preset_name = .error (.malformed e) ∧
      initialize_from_preset fs preset_name st =
        (.error (.malformed e), st)) := by
  refine ⟨fun h => ?_, fun preset hp => ?_, fun e he => ?_⟩
  · constructor <;> simp [get_preset, initialize_from_preset, h]
  · simp [get_preset, hp]
  · constructor <;> simp [get_preset, initialize_from_preset, he]

/-- Witness for C2: a missing name yields NotFound with that name and an
unchanged state; an existing document is returned in full; a malformed
document's parse failure propagates. -/
theorem claim_C2_witness :
    get_preset ⟨true, [("study", Except.ok studyPreset)]⟩ "missing" =
      .error (.notFound "missing") ∧
    initialize_from_preset ⟨true, [("study", Except.ok studyPreset)]⟩
      "missing" ⟨0, []⟩ = (.error (.notFound "missing"), ⟨0, []⟩) ∧
    get_preset ⟨true, [("study", Except.ok studyPreset)]⟩ "study" =
      .ok studyPreset ∧
    get_preset ⟨true, [("bad", Except.error (ParseErr.jsonDecode "oops"))]⟩
      "bad" = .error (.malformed (ParseErr.jsonDecode "oops")) := by
  have h1 := (claim_C2_get_preset ⟨true, [("study", Except.ok studyPreset)]⟩
    "missing" ⟨0, []⟩).1 (by rfl)
  have h2 := (claim_C2_get_preset ⟨true, [("study", Except.ok studyPreset)]⟩
    "study" ⟨0, []⟩).2.1 studyPreset (by rfl)
  have h3 := (claim_C2_get_preset
    ⟨true, [("bad", Except.error (ParseErr.jsonDecode "oops"))]⟩
    "bad" ⟨0, []⟩).2.2 (ParseErr.jsonDecode "oops") (by rfl)
  exact ⟨h1.1, h1.2, h2, h3.1⟩

/-- C3: `list_presets` never raises (it is a total function): it returns
the empty list when the preset directory does not exist, and otherwise
exactly one `PresetInfo` per document that parses, silently omitting
every document whose load failed. -/
theorem claim_C3_list_presets (fs : PresetsDir) :
    list_presets fs =
      if fs.dirExists then
        fs.files.filterMap (fun f =>
          match f.2 with
          | .ok preset => some (presetInfoOf preset)
          | .error _ => none)
      else [] := by
  unfold list_presets
  cases h : fs.dirExists with
  | true => simp [foldl_presets_eq_filterMap]
  | false => simp

/-- C4: `initialize_from_preset` on a loaded preset issues exactly one
tag-group creation, exactly `len(preset.tags)` tag creations and exactly
`countTodos(preset.todos)` todo creations, and the returned record
carries the created group's identifier, the tag count and the todo
count. -/
theorem claim_C4_initialize_counts (preset : Preset) (preset_name : String)
    (st : St) :
    ∃ gid : Nat,
      tagGroupIdsOf ((initialize_core preset preset_name st).2.events.drop
        st.events.length) = [gid] ∧
      (initialize_core preset preset_name st).1.tag_group_id = toString gid ∧
      (tagIdsOf ((initialize_core preset preset_name st).2.events.drop
        st.events.length)).length = preset.tags.length ∧
      (initialize_core preset preset_name st).1.tags_created =
        preset.tags.length ∧
      (todoIdsOf ((initialize_core preset preset_name st).2.events.drop
        st.events.length)).length = count_todos_recursive preset.todos ∧
      (initialize_core preset preset_name st).1.todos_created =
        count_todos_recursive preset.todos := by
  refine ⟨st.nextId, ?_, ?_, ?_, ?_, ?_, ?_⟩
  · rw [initialize_core_new_events]
    simp [tagGroupIdsOf_cons_tagGroup, tagGroupIdsOf_append,
      tagGroupIdsOf_genTagEvents, tagGroupIdsOf_genTodoEvents]
  · rw [initialize_core_eq]
  · rw [initialize_core_new_events]
    simp [tagIdsOf_cons_tagGroup, tagIdsOf_append, tagIdsOf_genTagEvents,
      tagIdsOf_genTodoEvents, List.length_range']
  · rw [initialize_core_eq]
  · rw [initialize_core_new_events]
    simp [todoIdsOf_cons_tagGroup, todoIdsOf_append, todoIdsOf_genTagEvents,
      todoIdsOf_genTodoEvents_length, genTodoEvents_length]
  · rw [initialize_core_eq]

/-- C5: during materialization every created todo's parent reference is
either `none` (root level) or the identifier of a todo created strictly
earlier in the same invocation — never a forward reference — and the
todos are created in document order, each parent before its children
(the created titles form the preorder traversal of the forest). -/
theorem claim_C5_parent_before_child (preset : Preset) (preset_name : String)
    (st : St) :
    noForwardRef ((initialize_core preset preset_name st).2.events.drop
      st.events.length) [] ∧
    todoTitlesOf ((initialize_core preset preset_name st).2.events.drop
      st.events.length) = preorderTitles preset.todos := by
  rw [initialize_core_new_events]
  constructor
  · show noForwardRef
      (genTagEvents preset.tags st.nextId (st.nextId + 1) ++
       genTodoEvents preset.todos st.nextId
         (buildTagMap preset.tags [] (st.nextId + 1)) none
         (st.nextId + 1 + preset.tags.length)) []
    apply noForwardRef_append
    · exact genTagEvents_noForwardRef preset.tags st.nextId (st.nextId + 1) []
    · exact genTodoEvents_noForwardRef preset.todos st.nextId
        (buildTagMap preset.tags [] (st.nextId + 1)) none
        (st.nextId + 1 + preset.tags.length)
        ([] ++ todoIdsOf (genTagEvents preset.tags st.nextId (st.nextId + 1)))
        (Or.inl rfl)
  · simp [todoTitlesOf_cons_tagGroup, todoTitlesOf_append,
      todoTitlesOf_genTagEvents, todoTitlesOf_genTodoEvents]

/-- C6: the count returned by the creation traversal
`_create_todos_recursive` equals the pure count `_count_todos_recursive`
of the same forest. -/
theorem claim_C6_created_equals_counted (todos : List PresetTodo) (gid : Nat)
    (m : List (String × Nat)) (pid : Option Nat) (st : St) :
    (create_todos_recursive todos gid m pid st).1 =
      count_todos_recursive todos := by
  rw [create_todos_recursive_eq]
  exact genTodoEvents_length todos gid m pid st.nextId

/-- C7: tags are created in the order of the preset's tag list (their
creation events carry the tag names in list order with consecutive
identifiers), and the name→identifier mapping sends each name to the
identifier of the most recently created tag bearing it: the identifier of
the tag at the last index with that name (last-write-wins). -/
theorem claim_C7_tag_map_last_write_wins (tags : List PresetTag) (gid : Nat)
    (st : St) (name : String) :
    tagNamesOf ((create_preset_tags tags gid [] st).2.events.drop
      st.events.length) = tags.map (fun t => t.name) ∧
    tagIdsOf ((create_preset_tags tags gid [] st).2.events.drop
      st.events.length) = List.range' st.nextId tags.length ∧
    dictLookup (create_preset_tags tags gid [] st).1 name =
      (lastIdxWithName name tags).map (fun i => st.nextId + i) := by
  rw [create_preset_tags_eq]
  refine ⟨?_, ?_, ?_⟩
  · simp [List.drop_left, tagNamesOf_genTagEvents]
  · simp [List.drop_left, tagIdsOf_genTagEvents]
  · show dictLookup (buildTagMap tags [] st.nextId) name = _
    rw [buildTagMap_lookup]
    cases h : lastIdxWithName name tags <;> simp [dictLookup_nil]

/-- C8: for a todo node with a non-empty `tag_names` list, the tag
identifiers attached to the created todo are exactly the left-to-right
resolution of the names through the mapping: names present resolve to
their identifiers, names absent are silently omitted, and no error is
raised. -/
theorem claim_C8_unresolved_tag_names (m : List (String × Nat))
    (names : List String) (h : names ≠ []) :
    resolveTagIds m (some names) = some (specResolve m names) ∧
    ∀ (title : String) (desc : Option String)
      (children : Option (List PresetTodo)) (gid : Nat) (pid : Option Nat)
      (st : St),
      ((create_todos_recursive [PresetTodo.mk title desc (some names) children]
          gid m pid st).2.events.drop st.events.length).head? =
        some (Event.todoCreated st.nextId
          { title := title, description := desc, tag_group_id := gid
          , tag_ids := some (specResolve m names), parent_id := pid }) := by
  have hr := resolveTagIds_eq_specResolve m names h
  refine ⟨hr, ?_⟩
  intro title desc children gid pid st
  rw [create_todos_single_head, hr]

/-- Witness for C8: with mapping `Math ↦ 7`, the names
`[Math, Ghost]` resolve to `[7]` — the unresolved name is dropped. -/
theorem claim_C8_witness :
    resolveTagIds [("Math", 7)] (some ["Math", "Ghost"]) = some [7] := by
  have h := (claim_C8_unresolved_tag_names [("Math", 7)] ["Math", "Ghost"]
    (by simp)).1
  exact h.trans rfl

/-- C9: the `preset_name` field of the returned `PresetInitializeResult`
always equals the name argument of the call, even when the loaded
document's internal `name` field differs. -/
theorem claim_C9_result_preset_name (fs : PresetsDir) (preset_name : String)
    (preset : Preset) (st : St)
    (h : get_preset fs preset_name = .ok preset) :
    ∃ res, (initialize_from_preset fs preset_name st).1 = .ok res ∧
      res.preset_name = preset_name := by
  refine ⟨(initialize_core preset preset_name st).1, ?_, ?_⟩
  · simp [initialize_from_preset, h]
  · rw [initialize_core_eq]

/-- Witness for C9: a document whose internal name is `daily`, stored
under the file name `study`, yields a result whose `preset_name` is
`study`. -/
theorem claim_C9_witness :
    renamedPreset.name = "daily" ∧
    ∃ res, (initialize_from_preset
        ⟨true, [("study", Except.ok renamedPreset)]⟩ "study" ⟨0, []⟩).1 =
        .ok res ∧ res.preset_name = "study" := by
  constructor
  · rfl
  · exact claim_C9_result_preset_name
      ⟨true, [("study", Except.ok renamedPreset)]⟩ "study" renamedPreset
      ⟨0, []⟩ (by rfl)

/-- C10: a todo whose `tag_names` is `None` or the empty list is created
with `tag_ids = None`, whereas a todo whose `tag_names` is non-empty but
contains only unresolved names is created with `tag_ids = some []` — the
two cases reach the todo-creation collaborator differently. -/
theorem claim_C10_none_vs_empty (gid : Nat) (m : List (String × Nat))
    (pid : Option Nat) (st : St) (title : String) (desc : Option String)
    (children : Option (List PresetTodo)) (names : List String) :
    ((create_todos_recursive [PresetTodo.mk title desc none children]
        gid m pid st).2.events.drop st.events.length).head? =
      some (Event.todoCreated st.nextId
        { title := title, description := desc, tag_group_id := gid
        , tag_ids := none, parent_id := pid }) ∧
    ((create_todos_recursive [PresetTodo.mk title desc (some []) children]
        gid m pid st).2.events.drop st.events.length).head? =
      some (Event.todoCreated st.nextId
        { title := title, description := desc, tag_group_id := gid
        , tag_ids := none, parent_id := pid }) ∧
    (names ≠ [] → (∀ n ∈ names, dictLookup m n = none) →
      ((create_todos_recursive [PresetTodo.mk title desc (some names) children]
          gid m pid st).2.events.drop st.events.length).head? =
        some (Event.todoCreated st.nextId
          { title := title, description := desc, tag_group_id := gid
          , tag_ids := some [], parent_id := pid })) := by
  refine ⟨?_, ?_, fun hne hnone => ?_⟩
  · rw [create_todos_single_head]
    simp [resolveTagIds, optListTruthy]
  · rw [create_todos_single_head]
    simp [resolveTagIds, optListTruthy]
  · have hres : resolveTagIds m (some names) = some [] := by
      rw [resolveTagIds_eq_specResolve m names hne, specResolve_eq_filterMap]
      exact congrArg some (List.filterMap_eq_nil_iff.2 hnone)
    rw [create_todos_single_head, hres]

/-- Witness for C10: with an empty mapping, a node with no `tag_names`
and a node with `tag_names = []` get `tag_ids = none`, while a node whose
only tag name is unresolved gets `tag_ids = some []`. -/
theorem claim_C10_witness :
    ((create_todos_recursive [PresetTodo.mk "T" none none none]
        0 [] none ⟨0, []⟩).2.events.drop 0).head? =
      some (Event.todoCreated 0
        { title := "T", description := none, tag_group_id := 0
        , tag_ids := none, parent_id := none }) ∧
    ((create_todos_recursive [PresetTodo.mk "T" none (some []) none]
        0 [] none ⟨0, []⟩).2.events.drop 0).head? =
      some (Event.todoCreated 0
        { title := "T", description := none, tag_group_id := 0
        , tag_ids := none, parent_id := none }) ∧
    ((create_todos_recursive [PresetTodo.mk "T" none (some ["Ghost"]) none]
        0 [] none ⟨0, []⟩).2.events.drop 0).head? =
      some (Event.todoCreated 0
        { title := "T", description := none, tag_group_id := 0
        , tag_ids := some [], parent_id := none }) := by
  have h := claim_C10_none_vs_empty 0 [] none ⟨0, []⟩ "T" none none ["Ghost"]
  exact ⟨h.1, h.2.1, h.2.2 (by simp) (fun n _ => rfl)⟩

end PresetSpec
